import Mathlib

/-
Verification of the card loading module of Santerhy/drinkingGame
(src/lib/languages/load.ts): a shallow embedding in Lean 4 of the
data model and the operations fetchAndFilterCards, createCards,
loadCards, loadSingleCard, getStoredCards and setLanguage, together
with theorems about their stated properties.

Network fetches and the pseudo-random seed are inputs of the embedded
functions: a fetch is an `Except String (List Card)` (either the parsed
card list or a thrown error) and the seed (`Math.random()` in the
source) is a natural number parameter.
-/

namespace DrinkingGame

/-- Modelled from the spec: the supported-language enumeration
(`Language` in src/lib/languages/language.ts, which is not under src/).
The spec names two languages, Finnish and English, with locale codes
"fi" and "en". -/
inductive Language where
  | FI
  | EN
deriving DecidableEq, Repr

/-- Modelled from the spec: the tag enumeration (`Tag` in
src/lib/constants/tag.ts, which is not under src/): "an enumerated
label (including a sentinel `untagged` value) used for
inclusion/exclusion filtering". Only the sentinel `UNTAGGED` is
distinguished by the code under src/; the other constructors stand for
the ordinary labels. -/
inductive Tag where
  | A
  | B
  | C
  | UNTAGGED
deriving DecidableEq, Repr

/-- Modelled from the spec: a card (`Card` in src/lib/interfaces/card.ts,
which is not under src/): "an entity with a list of tag identifiers and
language-specific content". -/
structure Card where
  tags : List Tag
  content : String
deriving DecidableEq, Repr

/-- Embeds `LanguageData` from load.ts: the optional card list and the
language code. (`cards?: Card[]` is an optional field, hence
`Option`.) -/
structure LanguageData where
  cards : Option (List Card)
  language : Language
deriving DecidableEq, Repr

/-- The inclusion predicate of `fetchAndFilterCards` (load.ts lines
74-78): a card passes when it has at least one of the included tags, or
when `UNTAGGED` is included and the card has no tags. -/
def includePred (includedTags : List Tag) (card : Card) : Bool :=
  card.tags.any (fun tag => includedTags.contains tag) ||
    (includedTags.contains Tag.UNTAGGED && card.tags.length == 0)

/-- The exclusion predicate of `fetchAndFilterCards` (load.ts lines
81-85): a card survives when it has none of the excluded tags, and not
(`UNTAGGED` is excluded and the card has no tags). -/
def excludePred (excludedTags : List Tag) (card : Card) : Bool :=
  !card.tags.any (fun tag => excludedTags.contains tag) &&
    !(excludedTags.contains Tag.UNTAGGED && card.tags.length == 0)

/-- The two-pass filter of `fetchAndFilterCards` (load.ts lines 74-85):
first keep the included cards, then drop the excluded ones. -/
def filterCards (includedTags excludedTags : List Tag) (cards : List Card) :
    List Card :=
  (cards.filter (includePred includedTags)).filter (excludePred excludedTags)

/-- The single-pass keep rule as the spec words it, written for
comparison with `filterCards`: keep a card iff (it has a tag in the
inclusion set, or the inclusion set contains the untagged sentinel and
the card has zero tags) and not (it has a tag in the exclusion set, or
the exclusion set contains the untagged sentinel and the card has zero
tags). -/
def specKeep (includedTags excludedTags : List Tag) (card : Card) : Bool :=
  (card.tags.any (fun tag => includedTags.contains tag) ||
      (includedTags.contains Tag.UNTAGGED && card.tags.length == 0)) &&
    !(card.tags.any (fun tag => excludedTags.contains tag) ||
      (excludedTags.contains Tag.UNTAGGED && card.tags.length == 0))

lemma includePred_and_excludePred (inc exc : List Tag) (card : Card) :
    (includePred inc card && excludePred exc card) = specKeep inc exc card := by
  simp only [includePred, excludePred, specKeep]
  cases h1 : card.tags.any (fun tag => inc.contains tag) <;>
    cases h2 : card.tags.any (fun tag => exc.contains tag) <;>
    cases h3 : inc.contains Tag.UNTAGGED <;>
    cases h4 : exc.contains Tag.UNTAGGED <;>
    cases h5 : card.tags.length == 0 <;> simp

lemma filterCards_eq_filter_specKeep (inc exc : List Tag) (cards : List Card) :
    filterCards inc exc cards = cards.filter (specKeep inc exc) := by
  unfold filterCards
  rw [List.filter_filter]
  apply List.filter_congr
  intro card _
  rw [Bool.and_comm]
  exact includePred_and_excludePred inc exc card

lemma filter_idem {α : Type} (p : α → Bool) (l : List α) :
    (l.filter p).filter p = l.filter p := by
  induction l with
  | nil => rfl
  | cons a tl ih =>
    by_cases h : p a = true
    · simp [List.filter_cons, h, ih]
    · simp only [Bool.not_eq_true] at h
      simp [List.filter_cons, h, ih]

/-- Modelled from the spec: the pseudo-random state update used by
`seededShuffle` (src/lib/utils/seed.ts, which is not under src/). The
spec only requires "a seeded deterministic permutation ... reproducible
across process runs given the same seed"; a linear congruential step
supplies a concrete deterministic stream. -/
def lcg (s : Nat) : Nat := (s * 1103515245 + 12345) % 2147483648

/-- Modelled from the spec: the index permutation drawn by the shuffler.
From a pseudo-random state, a fuel equal to the number of indices and
the list of still-available indices, repeatedly pick one available
index and recurse on the rest (a Fisher-Yates style draw). -/
def drawPerm : Nat → Nat → List Nat → List Nat
  | _, 0, _ => []
  | _, _ + 1, [] => []
  | state, fuel + 1, a :: rest =>
    let avail := a :: rest
    let k := state % avail.length
    avail.getD k 0 :: drawPerm (lcg state) fuel (avail.eraseIdx k)

/-- Modelled from the spec: the index permutation produced for a given
seed and input length. It depends on nothing but the seed and the
length — the property the spec states for `seededShuffle`. -/
def shufflePerm (seed n : Nat) : List Nat :=
  drawPerm (lcg seed) n (List.range n)

/-- Modelled from the spec: `seededShuffle` from src/lib/utils/seed.ts
(not under src/): "given a list and a numeric seed, produces a
reordering such that the same seed and same input length always yield
the same permutation". The model derives the index permutation from the
seed and the input length and reads the input off in that order. -/
def seededShuffle {α : Type} (l : List α) (seed : Nat) : List α :=
  (shufflePerm seed l.length).filterMap (fun i => l.get? i)

lemma perm_getElem_cons_eraseIdx (l : List Nat) (k : Nat) (h : k < l.length) :
    l.Perm (l[k] :: l.eraseIdx k) :=
  (List.perm_cons_erase (l.getElem_mem h)).trans
    ((List.erase_getElem h).cons l[k])

lemma drawPerm_perm (fuel : Nat) :
    ∀ state : Nat, ∀ avail : List Nat, fuel = avail.length →
      (drawPerm state fuel avail).Perm avail := by
  induction fuel with
  | zero =>
    intro state avail h
    rw [drawPerm]
    exact (List.eq_nil_of_length_eq_zero h.symm) ▸ List.Perm.refl []
  | succ n ih =>
    intro state avail h
    match avail with
    | [] => simp at h
    | a :: rest =>
      rw [drawPerm]
      have hk : state % (a :: rest).length < (a :: rest).length :=
        Nat.mod_lt _ (by simp)
      have hlen : n = ((a :: rest).eraseIdx (state % (a :: rest).length)).length := by
        have := List.length_eraseIdx_add_one hk
        omega
      have hperm := ih (lcg state) ((a :: rest).eraseIdx (state % (a :: rest).length)) hlen
      have hgetD : (a :: rest).getD (state % (a :: rest).length) 0 =
          (a :: rest)[state % (a :: rest).length] :=
        List.getD_eq_getElem (a :: rest) 0 hk
      rw [hgetD]
      exact (hperm.cons _).trans
        (perm_getElem_cons_eraseIdx (a :: rest) _ hk).symm

lemma shufflePerm_perm_range (seed n : Nat) :
    (shufflePerm seed n).Perm (List.range n) :=
  drawPerm_perm n (lcg seed) (List.range n) (List.length_range n).symm

lemma shufflePerm_length (seed n : Nat) : (shufflePerm seed n).length = n := by
  have := (shufflePerm_perm_range seed n).length_eq
  simpa using this

lemma filterMap_range_get {α : Type} (l : List α) :
    (List.range l.length).filterMap (fun i => l.get? i) = l := by
  induction l with
  | nil => rfl
  | cons a tl ih =>
    rw [List.length_cons, List.range_succ_eq_map, List.filterMap_cons]
    simp only [List.get?_cons_zero, List.filterMap_map]
    have : (fun i => (a :: tl).get? (i + 1)) = fun i => tl.get? i := by
      funext i
      rfl
    simp only [Function.comp_def, this, ih]

lemma filterMap_get_perm {α : Type} (l : List α) (p : List Nat)
    (hp : p.Perm (List.range l.length)) :
    (p.filterMap (fun i => l.get? i)).Perm l := by
  have := hp.filterMap (fun i => l.get? i)
  rw [filterMap_range_get] at this
  exact this

lemma get?_filterMap_of_isSome {α : Type} (f : Nat → Option α) :
    ∀ (p : List Nat) (i : Nat), (∀ x ∈ p, (f x).isSome) →
      (p.filterMap f).get? i = (p.get? i).bind f := by
  intro p
  induction p with
  | nil => intro i _; rfl
  | cons a tl ih =>
    intro i hall
    have ha : (f a).isSome := hall a (List.mem_cons_self a tl)
    obtain ⟨y, hy⟩ := Option.isSome_iff_exists.mp ha
    rw [List.filterMap_cons_some hy]
    cases i with
    | zero => simp [hy]
    | succ j =>
      simp only [List.get?_cons_succ]
      exact ih j (fun x hx => hall x (List.mem_cons_of_mem a hx))

lemma seededShuffle_get? {α : Type} (l : List α) (seed : Nat) (i j : Nat)
    (hj : (shufflePerm seed l.length).get? i = some j) :
    (seededShuffle l seed).get? i = l.get? j := by
  have hall : ∀ x ∈ shufflePerm seed l.length, ((fun i => l.get? i) x).isSome := by
    intro x hx
    have hmem : x ∈ List.range l.length :=
      (shufflePerm_perm_range seed l.length).mem_iff.mp hx
    have hlt : x < l.length := List.mem_range.mp hmem
    simp [List.get?_eq_getElem?, List.getElem?_eq_getElem hlt]
  unfold seededShuffle
  rw [get?_filterMap_of_isSome (fun i => l.get? i) _ i hall, hj]
  rfl

/-- Embeds `fetchAndFilterCards` (load.ts lines 62-92). The network fetch and
JSON parse are an input: `Except.ok cards` when the fetch resolves and
the body parses, `Except.error e` when either throws. The `try` block
filters and shuffles the parsed cards; the `catch` block logs and
returns the empty list. The returned pair records whether the catch
branch logged an error (`console.error`). -/
def fetchAndFilterCards (language : Language) (includedTags excludedTags : List Tag)
    (seed : Nat) (fetchResult : Except String (List Card)) :
    List Card × Bool :=
  match language, fetchResult with
  | _, Except.ok cards =>
    (seededShuffle (filterCards includedTags excludedTags cards) seed, false)
  | _, Except.error _ => ([], true)

/-- Embeds `createCards` (load.ts lines 101-122): draw one shared seed,
fetch, filter and shuffle the cards of both languages with it, and keep
the first `cardAmount` of each. The two fetch outcomes are inputs.
Nothing inside the `try` block of the source throws once the
per-language fetches are modelled (they catch their own errors), so the
`catch`/`null` branch is unreachable here; the `Option` in the result
type mirrors the source type `Record<Language, LanguageData> |
null`. -/
def createCards (cardAmount : Nat) (includedTags excludedTags : List Tag)
    (seed : Nat) (fiFetch enFetch : Except String (List Card)) :
    Option (Language → LanguageData) :=
  let fiShuffledCards :=
    (fetchAndFilterCards Language.FI includedTags excludedTags seed fiFetch).1
  let enShuffledCards :=
    (fetchAndFilterCards Language.EN includedTags excludedTags seed enFetch).1
  some (fun lang =>
    match lang with
    | Language.FI => ⟨some (fiShuffledCards.take cardAmount), Language.FI⟩
    | Language.EN => ⟨some (enShuffledCards.take cardAmount), Language.EN⟩)

/-- Embeds `Number.MAX_SAFE_INTEGER`. -/
def maxSafeInteger : Nat := 2 ^ 53 - 1

/-- Embeds `lang.cards?.length ?? 0` (load.ts line 141). -/
def deckLen (d : LanguageData) : Nat :=
  match d.cards with
  | some cs => cs.length
  | none => 0

/-- JavaScript `x || 0` on a number (load.ts line 142): `0` is falsy, so
on a natural number this is the identity; it is kept to mirror the
source expression. -/
def jsOrZero (n : Nat) : Nat := if n == 0 then 0 else n

/-- The store `languageData`: a record from languages to their data.
A language may be absent from the record (`Record<Language,
LanguageData>` parsed from localStorage can lack keys), hence
`Option`. -/
def Store : Type := Language → Option LanguageData

/-- Embeds `loadCards` (load.ts lines 130-148), given the outcome of
`createCards` (line 132) and the current store: when `createCards`
returned null, return 0 and leave the store untouched; otherwise
replace the whole store with the new record and return the minimum
deck length over `Object.values` (insertion order FI then EN), folded
with `Math.min` from `Number.MAX_SAFE_INTEGER`, then `|| 0`. -/
def loadCards (store : Store) (cardsData : Option (Language → LanguageData)) :
    Nat × Store :=
  match cardsData with
  | none => (0, store)
  | some data =>
    let newStore : Store := fun lang => some (data lang)
    let count := jsOrZero
      (([data Language.FI, data Language.EN].map deckLen).foldl
        (fun m len => min m len) maxSafeInteger)
    (count, newStore)

/-- The full-load operation: `loadCards` composed with `createCards`
at `Number.MAX_SAFE_INTEGER` (load.ts line 132). -/
def loadCardsFull (store : Store) (includedTags excludedTags : List Tag)
    (seed : Nat) (fiFetch enFetch : Except String (List Card)) :
    Nat × Store :=
  loadCards store (createCards maxSafeInteger includedTags excludedTags seed fiFetch enFetch)

/-- JavaScript array element assignment `arr[i] = x` (load.ts line 177)
for an index within bounds: replace the element at `i`. (For an index
at or past the length JavaScript grows the array with holes, which a
`List Card` cannot represent; the theorems about `loadSingleCard`
therefore carry an in-bounds hypothesis.) -/
def jsArraySet (l : List Card) (i : Nat) (x : Card) : List Card := l.set i x

/-- Embeds `loadSingleCard` (load.ts lines 156-187), given the outcome
of `createCards 1` (line 166) and the current store; returns the store
the operation commits. When `createCards` returned null the store is
left as it was. Otherwise, per language: if the language has stored
data with a `cards` array (any array, `[]` included, is truthy) and the
first card of the new data exists, that card is written at `cardIndex`;
in every case the entry of the language is rebuilt as spread-of-langData
with the language field set, so a missing entry becomes one with no
card list. -/
def loadSingleCard (cardIndex : Nat) (store : Store)
    (newCardData : Option (Language → LanguageData)) : Store :=
  match newCardData with
  | none => store
  | some newData =>
    fun lang =>
      let langData := store lang
      let newLangCard := (newData lang).cards.bind List.head?
      match langData, newLangCard with
      | some ld, some c =>
        match ld.cards with
        | some cs => some ⟨some (jsArraySet cs cardIndex c), lang⟩
        | none => some ⟨none, lang⟩
      | some ld, none => some ⟨ld.cards, lang⟩
      | none, _ => some ⟨none, lang⟩

/-- Embeds `getStoredCards` (load.ts lines 194-196):
`get(languageData)[lang]?.cards || null`. A missing entry or a missing
`cards` field gives `undefined`, hence `null`; a present array is
truthy (also when empty) and is returned as-is. -/
def getStoredCards (store : Store) (lang : Language) : Option (List Card) :=
  match store lang with
  | none => none
  | some ld =>
    match ld.cards with
    | none => none
    | some cs => some cs

/-- The session state touched by `setLanguage`: the sessionStorage key
"selectedLanguage" and the active svelte-i18n locale. -/
structure SessionState where
  selectedLanguage : Option String
  locale : Option String
deriving DecidableEq, Repr

/-- Embeds `setLanguage` (load.ts lines 218-226). At runtime the
argument is the string value of the enum, so any string can arrive. The
guard is
JavaScript truthiness of `lang.toString()`: every non-empty string
passes it, and then sessionStorage and the locale are set; only the
empty string reaches the `else` branch that logs "Unsupported
language". The returned flag records whether the error was logged. -/
def setLanguage (lang : String) (st : SessionState) : SessionState × Bool :=
  let localeCode := lang
  if localeCode ≠ "" then
    (⟨some lang, some localeCode⟩, false)
  else
    (st, true)

/-- Modelled from the spec: the supported locale codes, "fi" and "en"
(`Language` enum values in src/lib/languages/language.ts, not under
src/). -/
def supportedLanguageCodes : List String := ["fi", "en"]

/-- The deck `createCards` produced for a language (empty when it
returned null or the language has no card list). -/
def createdDeck (res : Option (Language → LanguageData)) (lang : Language) :
    List Card :=
  match res with
  | none => []
  | some data => ((data lang).cards).getD []

/-- C2: the two-pass filter keeps a card if and only if the card has a
tag in the inclusion set or the inclusion set contains the untagged
sentinel and the card has zero tags, and not (the card has a tag in the
exclusion set or the exclusion set contains the untagged sentinel and
the card has zero tags); in particular a card with no tags passes
exactly when the inclusion set contains `UNTAGGED` and the exclusion
set does not. -/
theorem filterCards_correct (inc exc : List Tag) (cards : List Card)
    (content : String) :
    filterCards inc exc cards = cards.filter (specKeep inc exc) ∧
    specKeep inc exc ⟨[], content⟩ =
      (inc.contains Tag.UNTAGGED && !exc.contains Tag.UNTAGGED) := by
  refine ⟨filterCards_eq_filter_specKeep inc exc cards, ?_⟩
  simp [specKeep]

/-- C8: filtering is idempotent — applying the filter to a list that is
already the output of the filter with the same tag sets returns that
list unchanged. -/
theorem filterCards_idempotent (inc exc : List Tag) (cards : List Card) :
    filterCards inc exc (filterCards inc exc cards) =
      filterCards inc exc cards := by
  rw [filterCards_eq_filter_specKeep inc exc cards,
    filterCards_eq_filter_specKeep inc exc, filter_idem]

/-- C3: the seeded shuffle is deterministic. Its output is exactly the
index permutation computed from the seed and the input length applied
to the input (so two invocations with the same list and seed agree),
the output is a permutation of the input, and the same seed with the
same input length yields the same index permutation, for inputs of any
two types. -/
theorem seededShuffle_deterministic {α β : Type} (l1 : List α) (l2 : List β)
    (seed : Nat) (h : l1.length = l2.length) :
    seededShuffle l1 seed =
      (shufflePerm seed l1.length).filterMap (fun i => l1.get? i) ∧
    (seededShuffle l1 seed).Perm l1 ∧
    shufflePerm seed l1.length = shufflePerm seed l2.length := by
  refine ⟨rfl, ?_, by rw [h]⟩
  exact filterMap_get_perm l1 _ (shufflePerm_perm_range seed l1.length)

theorem seededShuffle_deterministic_witness :
    ([10, 20] : List Nat).length = (["a", "b"] : List String).length ∧
    (seededShuffle ([10, 20] : List Nat) 5 =
      (shufflePerm 5 ([10, 20] : List Nat).length).filterMap
        (fun i => ([10, 20] : List Nat).get? i) ∧
    (seededShuffle ([10, 20] : List Nat) 5).Perm [10, 20] ∧
    shufflePerm 5 ([10, 20] : List Nat).length =
      shufflePerm 5 (["a", "b"] : List String).length) :=
  ⟨rfl, seededShuffle_deterministic [10, 20] ["a", "b"] 5 rfl⟩

/-- C5: when the per-language fetch or parse fails, the per-language
fetch-and-filter operation returns the empty list, with the failure
logged (second component `true`); its return type carries no exception,
so nothing propagates to the caller. -/
theorem fetchAndFilterCards_failure (language : Language)
    (inc exc : List Tag) (seed : Nat) (e : String) :
    fetchAndFilterCards language inc exc seed (Except.error e) = ([], true) := by
  cases language <;> rfl

/-- C9: when the card-creation step of a full load fails (the
`createCards` outcome is null), `loadCards` returns 0 and leaves the
stored deck of every language exactly as it was. -/
theorem loadCards_null_atomic (store : Store) :
    (loadCards store none).1 = 0 ∧
    ∀ lang, (loadCards store none).2 lang = store lang :=
  ⟨rfl, fun _ => rfl⟩

/-- C7 (counterexample to the claimed behaviour): for the unsupported
language value "de" — not among the supported codes — `setLanguage` is
not a no-op: it overwrites the persisted selected language and the
active locale with "de" and logs no error, because the guard in the
source only tests JavaScript string truthiness, which every non-empty
string passes. -/
theorem setLanguage_unsupported_not_noop :
    ("de" ∈ supportedLanguageCodes ↔ False) ∧
    setLanguage "de" ⟨some "en", some "en"⟩ =
      (⟨some "de", some "de"⟩, false) := by
  refine ⟨?_, rfl⟩
  simp [supportedLanguageCodes]

/-- C10 (counterexample): `getStoredCards` returns null for a language
whose store entry exists but has no `cards` field, so "null only when
no deck entry exists" fails. -/
theorem getStoredCards_null_with_entry :
    getStoredCards (fun _ => some ⟨none, Language.FI⟩) Language.FI = none ∧
    (fun _ => some (⟨none, Language.FI⟩ : LanguageData)) Language.FI ≠ none :=
  ⟨rfl, fun hcontra => Option.noConfusion hcontra⟩

/-- C10 (amended): `getStoredCards` returns null exactly when the
language has no store entry or its entry has no card list; when the
entry has a card list, that list is returned as-is — including the
empty list, which is returned as an empty array, not null. -/
theorem getStoredCards_amended (store : Store) (lang : Language) :
    (getStoredCards store lang = none ↔
      store lang = none ∨ ∃ ld, store lang = some ld ∧ ld.cards = none) ∧
    (∀ ld cs, store lang = some ld → ld.cards = some cs →
      getStoredCards store lang = some cs) := by
  constructor
  · unfold getStoredCards
    cases hs : store lang with
    | none => simp
    | some ld =>
      cases hc : ld.cards with
      | none => simp [hc]
      | some cs => simp [hc]
  · intro ld cs hld hcs
    unfold getStoredCards
    rw [hld]
    simp only [hcs]

theorem getStoredCards_amended_witness :
    getStoredCards (fun _ => some ⟨some [], Language.EN⟩) Language.FI = some [] :=
  (getStoredCards_amended (fun _ => some ⟨some [], Language.EN⟩) Language.FI).2
    ⟨some [], Language.EN⟩ [] rfl rfl

lemma jsOrZero_eq (n : Nat) : jsOrZero n = n := by
  unfold jsOrZero
  by_cases h : n = 0 <;> simp [h]

lemma loadCards_some_fst (store : Store) (data : Language → LanguageData) :
    (loadCards store (some data)).1 =
      jsOrZero (min (min maxSafeInteger (deckLen (data Language.FI)))
        (deckLen (data Language.EN))) := rfl

lemma createCards_deckLen_le (amount : Nat) (inc exc : List Tag) (seed : Nat)
    (fiFetch enFetch : Except String (List Card))
    (data : Language → LanguageData)
    (h : createCards amount inc exc seed fiFetch enFetch = some data)
    (lang : Language) : deckLen (data lang) ≤ amount := by
  unfold createCards at h
  have hd := Option.some.inj h
  subst hd
  cases lang <;>
    simp [deckLen, List.length_take, Nat.min_le_left]

/-- C4: the full load returns the minimum resulting deck length across
the languages; in particular, when the fetch for Finnish fails (so its
deck is empty) the load returns 0, whatever the English fetch
produced. -/
theorem loadCards_min_count (store : Store) (inc exc : List Tag) (seed : Nat)
    (fiFetch enFetch : Except String (List Card)) :
    (∀ data, createCards maxSafeInteger inc exc seed fiFetch enFetch = some data →
      (loadCardsFull store inc exc seed fiFetch enFetch).1 =
        min (deckLen (data Language.FI)) (deckLen (data Language.EN))) ∧
    (∀ e, fiFetch = Except.error e →
      (loadCardsFull store inc exc seed fiFetch enFetch).1 = 0) := by
  constructor
  · intro data hdata
    have hle : deckLen (data Language.FI) ≤ maxSafeInteger :=
      createCards_deckLen_le _ _ _ _ _ _ _ hdata Language.FI
    unfold loadCardsFull
    rw [hdata, loadCards_some_fst, jsOrZero_eq, Nat.min_eq_right hle]
  · intro e he
    subst he
    unfold loadCardsFull
    have hcc :
        createCards maxSafeInteger inc exc seed (Except.error e) enFetch =
          some (fun lang =>
            match lang with
            | Language.FI => ⟨some ([] : List Card), Language.FI⟩
            | Language.EN =>
              ⟨some (((fetchAndFilterCards Language.EN inc exc seed
                enFetch).1).take maxSafeInteger), Language.EN⟩) := by
      unfold createCards fetchAndFilterCards
      rfl
    rw [hcc, loadCards_some_fst, jsOrZero_eq]
    simp [deckLen]

theorem loadCards_min_count_witness :
    (fetchAndFilterCards Language.EN [Tag.A] [] 7
      (Except.ok [⟨[Tag.A], "x"⟩])).1.length = 1 ∧
    (loadCardsFull (fun _ => none) [Tag.A] [] 7 (Except.error "boom")
      (Except.ok [⟨[Tag.A], "x"⟩])).1 = 0 :=
  ⟨rfl,
    (loadCards_min_count (fun _ => none) [Tag.A] [] 7 (Except.error "boom")
      (Except.ok [⟨[Tag.A], "x"⟩])).2 "boom" rfl⟩

lemma take_filterMap_get? {α : Type} (l : List α) (p : List Nat)
    (amount i j : Nat) (hp : p.Perm (List.range l.length)) (hi : i < amount)
    (hj : p.get? i = some j) :
    ((p.filterMap (fun k => l.get? k)).take amount).get? i = l.get? j := by
  have hall : ∀ x ∈ p, ((fun k => l.get? k) x).isSome := by
    intro x hx
    have hlt : x < l.length := List.mem_range.mp (hp.mem_iff.mp hx)
    simp [List.get?_eq_getElem?, List.getElem?_eq_getElem hlt]
  rw [List.get?_eq_getElem?, List.getElem?_take_of_lt hi,
    ← List.get?_eq_getElem?, get?_filterMap_of_isSome _ p i hall, hj]
  rfl

/-- C1: for one shared seed, the decks that `createCards` builds for
the two languages, when the two filtered lists have equal length, are
both the same index permutation (a permutation of the index range)
applied to the respective filtered list, then truncated; so the card at
any position `i` of one deck and the card at position `i` of the other
sit at the same source position `j` of their filtered lists. -/
theorem createCards_shared_permutation (amount : Nat) (inc exc : List Tag)
    (seed : Nat) (fiCards enCards : List Card)
    (h : (filterCards inc exc fiCards).length =
      (filterCards inc exc enCards).length) :
    ∃ p : List Nat,
      p.Perm (List.range (filterCards inc exc fiCards).length) ∧
      createdDeck (createCards amount inc exc seed (Except.ok fiCards)
          (Except.ok enCards)) Language.FI =
        (p.filterMap (fun k => (filterCards inc exc fiCards).get? k)).take
          amount ∧
      createdDeck (createCards amount inc exc seed (Except.ok fiCards)
          (Except.ok enCards)) Language.EN =
        (p.filterMap (fun k => (filterCards inc exc enCards).get? k)).take
          amount ∧
      ∀ i j : Nat, i < amount → p.get? i = some j →
        (createdDeck (createCards amount inc exc seed (Except.ok fiCards)
            (Except.ok enCards)) Language.FI).get? i =
          (filterCards inc exc fiCards).get? j ∧
        (createdDeck (createCards amount inc exc seed (Except.ok fiCards)
            (Except.ok enCards)) Language.EN).get? i =
          (filterCards inc exc enCards).get? j := by
  refine ⟨shufflePerm seed (filterCards inc exc fiCards).length,
    shufflePerm_perm_range seed _, rfl, ?_, ?_⟩
  · show ((shufflePerm seed (filterCards inc exc enCards).length).filterMap
        (fun k => (filterCards inc exc enCards).get? k)).take amount =
      ((shufflePerm seed (filterCards inc exc fiCards).length).filterMap
        (fun k => (filterCards inc exc enCards).get? k)).take amount
    rw [h]
  · intro i j hi hj
    constructor
    · exact take_filterMap_get? (filterCards inc exc fiCards)
        (shufflePerm seed (filterCards inc exc fiCards).length) amount i j
        (shufflePerm_perm_range seed _) hi hj
    · show (((shufflePerm seed (filterCards inc exc enCards).length).filterMap
          (fun k => (filterCards inc exc enCards).get? k)).take amount).get? i =
        (filterCards inc exc enCards).get? j
      rw [← h]
      have hp2 : (shufflePerm seed (filterCards inc exc fiCards).length).Perm
          (List.range (filterCards inc exc enCards).length) := by
        rw [← h]
        exact shufflePerm_perm_range seed _
      exact take_filterMap_get? (filterCards inc exc enCards)
        (shufflePerm seed (filterCards inc exc fiCards).length) amount i j
        hp2 hi hj

theorem createCards_shared_permutation_witness :
    (filterCards [Tag.A] [] [⟨[Tag.A], "fi1"⟩]).length =
      (filterCards [Tag.A] [] [⟨[Tag.A], "en1"⟩]).length ∧
    (∃ p : List Nat,
      p.Perm (List.range (filterCards [Tag.A] [] [⟨[Tag.A], "fi1"⟩]).length) ∧
      createdDeck (createCards 3 [Tag.A] [] 2 (Except.ok [⟨[Tag.A], "fi1"⟩])
          (Except.ok [⟨[Tag.A], "en1"⟩])) Language.FI =
        (p.filterMap
          (fun k => (filterCards [Tag.A] [] [⟨[Tag.A], "fi1"⟩]).get? k)).take
          3 ∧
      createdDeck (createCards 3 [Tag.A] [] 2 (Except.ok [⟨[Tag.A], "fi1"⟩])
          (Except.ok [⟨[Tag.A], "en1"⟩])) Language.EN =
        (p.filterMap
          (fun k => (filterCards [Tag.A] [] [⟨[Tag.A], "en1"⟩]).get? k)).take
          3 ∧
      ∀ i j : Nat, i < 3 → p.get? i = some j →
        (createdDeck (createCards 3 [Tag.A] [] 2
            (Except.ok [⟨[Tag.A], "fi1"⟩])
            (Except.ok [⟨[Tag.A], "en1"⟩])) Language.FI).get? i =
          (filterCards [Tag.A] [] [⟨[Tag.A], "fi1"⟩]).get? j ∧
        (createdDeck (createCards 3 [Tag.A] [] 2
            (Except.ok [⟨[Tag.A], "fi1"⟩])
            (Except.ok [⟨[Tag.A], "en1"⟩])) Language.EN).get? i =
          (filterCards [Tag.A] [] [⟨[Tag.A], "en1"⟩]).get? j) :=
  ⟨rfl, createCards_shared_permutation 3 [Tag.A] [] 2 [⟨[Tag.A], "fi1"⟩]
    [⟨[Tag.A], "en1"⟩] rfl⟩

lemma get?_set_self {α : Type} (l : List α) :
    ∀ (i : Nat) (x : α), i < l.length → (l.set i x).get? i = some x := by
  induction l with
  | nil => intro i x h; simp at h
  | cons a tl ih =>
    intro i x h
    cases i with
    | zero => rfl
    | succ n =>
      have hn : n < tl.length := by simpa using h
      simpa using ih n x hn

lemma get?_set_other {α : Type} (l : List α) :
    ∀ (i j : Nat) (x : α), j ≠ i → (l.set i x).get? j = l.get? j := by
  induction l with
  | nil => intro i j x _; simp
  | cons a tl ih =>
    intro i j x hne
    cases i with
    | zero =>
      cases j with
      | zero => exact absurd rfl hne
      | succ m => rfl
    | succ n =>
      cases j with
      | zero => rfl
      | succ m =>
        have hm : m ≠ n := fun hcontra => hne (by rw [hcontra])
        simpa using ih n m x hm

lemma head?_take_one {α : Type} (l : List α) : (l.take 1).head? = l.head? := by
  cases l <;> rfl

/-- C6: single-card refresh with an in-bounds index, when both
languages have stored decks and the one-card fetch produced a card for
each, writes the new card at exactly the given index of the deck of
each language: the committed deck is the old deck with only position
`cardIndex`
overwritten, every other position reads back unchanged, and the deck
lengths are unchanged. -/
theorem loadSingleCard_frame (cardIndex : Nat) (store : Store)
    (inc exc : List Tag) (seed : Nat)
    (fiFetch enFetch : Except String (List Card))
    (fiCs enCs : List Card) (fiLd enLd : LanguageData) (newFi newEn : Card)
    (hfi : store Language.FI = some fiLd) (hfic : fiLd.cards = some fiCs)
    (hen : store Language.EN = some enLd) (henc : enLd.cards = some enCs)
    (hnf : (fetchAndFilterCards Language.FI inc exc seed fiFetch).1.head? =
      some newFi)
    (hne : (fetchAndFilterCards Language.EN inc exc seed enFetch).1.head? =
      some newEn)
    (hifi : cardIndex < fiCs.length) (hien : cardIndex < enCs.length) :
    loadSingleCard cardIndex store
        (createCards 1 inc exc seed fiFetch enFetch) Language.FI =
      some ⟨some (jsArraySet fiCs cardIndex newFi), Language.FI⟩ ∧
    loadSingleCard cardIndex store
        (createCards 1 inc exc seed fiFetch enFetch) Language.EN =
      some ⟨some (jsArraySet enCs cardIndex newEn), Language.EN⟩ ∧
    (jsArraySet fiCs cardIndex newFi).get? cardIndex = some newFi ∧
    (jsArraySet enCs cardIndex newEn).get? cardIndex = some newEn ∧
    (∀ j, j ≠ cardIndex →
      (jsArraySet fiCs cardIndex newFi).get? j = fiCs.get? j) ∧
    (∀ j, j ≠ cardIndex →
      (jsArraySet enCs cardIndex newEn).get? j = enCs.get? j) ∧
    (jsArraySet fiCs cardIndex newFi).length = fiCs.length ∧
    (jsArraySet enCs cardIndex newEn).length = enCs.length := by
  have hheadfi :
      ((fetchAndFilterCards Language.FI inc exc seed fiFetch).1.take 1).head? =
        some newFi := by
    rw [head?_take_one]
    exact hnf
  have hheaden :
      ((fetchAndFilterCards Language.EN inc exc seed enFetch).1.take 1).head? =
        some newEn := by
    rw [head?_take_one]
    exact hne
  refine ⟨?_, ?_, get?_set_self fiCs cardIndex newFi hifi,
    get?_set_self enCs cardIndex newEn hien,
    fun j hj => get?_set_other fiCs cardIndex j newFi hj,
    fun j hj => get?_set_other enCs cardIndex j newEn hj,
    List.length_set fiCs cardIndex newFi, List.length_set enCs cardIndex newEn⟩
  · simp only [loadSingleCard, createCards, hfi, Option.some_bind, hheadfi,
      hfic]
  · simp only [loadSingleCard, createCards, hen, Option.some_bind, hheaden,
      henc]

theorem loadSingleCard_frame_witness :
    loadSingleCard 0
        (fun lang =>
          match lang with
          | Language.FI =>
            some ⟨some [⟨[Tag.A], "f0"⟩, ⟨[Tag.B], "f1"⟩], Language.FI⟩
          | Language.EN =>
            some ⟨some [⟨[Tag.A], "e0"⟩, ⟨[Tag.B], "e1"⟩], Language.EN⟩)
        (createCards 1 [Tag.A] [] 9 (Except.ok [⟨[Tag.A], "nf"⟩])
          (Except.ok [⟨[Tag.A], "ne"⟩])) Language.FI =
      some ⟨some (jsArraySet [⟨[Tag.A], "f0"⟩, ⟨[Tag.B], "f1"⟩] 0
        ⟨[Tag.A], "nf"⟩), Language.FI⟩ ∧
    loadSingleCard 0
        (fun lang =>
          match lang with
          | Language.FI =>
            some ⟨some [⟨[Tag.A], "f0"⟩, ⟨[Tag.B], "f1"⟩], Language.FI⟩
          | Language.EN =>
            some ⟨some [⟨[Tag.A], "e0"⟩, ⟨[Tag.B], "e1"⟩], Language.EN⟩)
        (createCards 1 [Tag.A] [] 9 (Except.ok [⟨[Tag.A], "nf"⟩])
          (Except.ok [⟨[Tag.A], "ne"⟩])) Language.EN =
      some ⟨some (jsArraySet [⟨[Tag.A], "e0"⟩, ⟨[Tag.B], "e1"⟩] 0
        ⟨[Tag.A], "ne"⟩), Language.EN⟩ ∧
    (jsArraySet [⟨[Tag.A], "f0"⟩, ⟨[Tag.B], "f1"⟩] 0
      ⟨[Tag.A], "nf"⟩).get? 0 = some ⟨[Tag.A], "nf"⟩ ∧
    (jsArraySet [⟨[Tag.A], "e0"⟩, ⟨[Tag.B], "e1"⟩] 0
      ⟨[Tag.A], "ne"⟩).get? 0 = some ⟨[Tag.A], "ne"⟩ ∧
    (∀ j, j ≠ 0 →
      (jsArraySet [⟨[Tag.A], "f0"⟩, ⟨[Tag.B], "f1"⟩] 0
        ⟨[Tag.A], "nf"⟩).get? j =
      ([⟨[Tag.A], "f0"⟩, ⟨[Tag.B], "f1"⟩] : List Card).get? j) ∧
    (∀ j, j ≠ 0 →
      (jsArraySet [⟨[Tag.A], "e0"⟩, ⟨[Tag.B], "e1"⟩] 0
        ⟨[Tag.A], "ne"⟩).get? j =
      ([⟨[Tag.A], "e0"⟩, ⟨[Tag.B], "e1"⟩] : List Card).get? j) ∧
    (jsArraySet [⟨[Tag.A], "f0"⟩, ⟨[Tag.B], "f1"⟩] 0
      ⟨[Tag.A], "nf"⟩).length =
      ([⟨[Tag.A], "f0"⟩, ⟨[Tag.B], "f1"⟩] : List Card).length ∧
    (jsArraySet [⟨[Tag.A], "e0"⟩, ⟨[Tag.B], "e1"⟩] 0
      ⟨[Tag.A], "ne"⟩).length =
      ([⟨[Tag.A], "e0"⟩, ⟨[Tag.B], "e1"⟩] : List Card).length :=
  loadSingleCard_frame 0
    (fun lang =>
      match lang with
      | Language.FI =>
        some ⟨some [⟨[Tag.A], "f0"⟩, ⟨[Tag.B], "f1"⟩], Language.FI⟩
      | Language.EN =>
        some ⟨some [⟨[Tag.A], "e0"⟩, ⟨[Tag.B], "e1"⟩], Language.EN⟩)
    [Tag.A] [] 9 (Except.ok [⟨[Tag.A], "nf"⟩]) (Except.ok [⟨[Tag.A], "ne"⟩])
    [⟨[Tag.A], "f0"⟩, ⟨[Tag.B], "f1"⟩] [⟨[Tag.A], "e0"⟩, ⟨[Tag.B], "e1"⟩]
    ⟨some [⟨[Tag.A], "f0"⟩, ⟨[Tag.B], "f1"⟩], Language.FI⟩
    ⟨some [⟨[Tag.A], "e0"⟩, ⟨[Tag.B], "e1"⟩], Language.EN⟩
    ⟨[Tag.A], "nf"⟩ ⟨[Tag.A], "ne"⟩
    rfl rfl rfl rfl rfl rfl (by decide) (by decide)

end DrinkingGame
